import Mathlib

/-!
Verification of the maho aircraft-tracking core against its specification.

The development shallowly embeds the Python sources:
* `maho/adsb.py` — the `Aircraft` entity (property setters with timestamp
  side effects, pending position-fragment slots, derived `age`) and the
  fragment-merge path of `Dump1090.decode`;
* `maho/cli.py` — the `track_closest_aircraft` target-selection loop;
* `maho/camera.py` — the offset/clamp/wrap arithmetic of `IPCamera.move_to`;
* `maho/util.py` — the geodesy (`Location`, `AzimuthAltitudeDistance`).

Timestamps are rationals (an injected clock); geodesy is over the reals.
-/

namespace Maho

/-- Lat/lng pair as produced by the external positional decoder. -/
abbrev Pos : Type := ℚ × ℚ

/-- An aircraft entity, mirroring the private backing fields of the Python
`Aircraft` class in `maho/adsb.py`.  Raw fragment payloads (hex message
strings in Python) are modelled as naturals; each stored fragment carries
the capture time that `position_even`/`position_odd` setters attach. -/
structure Aircraft where
  _icao : ℕ
  _callsign : Option String
  _altitude : Option ℚ
  _position : Option Pos
  _speed : Option ℚ
  _heading : Option ℚ
  _position_even : Option (ℕ × ℚ)
  _position_odd : Option (ℕ × ℚ)
  _last_update : ℚ
  deriving Repr, DecidableEq

/-- Constructor `Aircraft.__init__`: assigns `icao` and then `None` to
callsign, altitude, position, speed and heading through the property
setters, so every timestamp-stamping setter runs at creation time `now`
and the position assignment leaves both fragment slots empty. -/
def Aircraft.create (icao : ℕ) (now : ℚ) : Aircraft :=
  { _icao := icao
    _callsign := none
    _altitude := none
    _position := none
    _speed := none
    _heading := none
    _position_even := none
    _position_odd := none
    _last_update := now }

/-- Setter of the `icao` property: stores the value and stamps `_last_update`. -/
def Aircraft.setIcao (a : Aircraft) (v : ℕ) (now : ℚ) : Aircraft :=
  { a with _icao := v, _last_update := now }

/-- Setter of the `callsign` property: stores the value and stamps `_last_update`. -/
def Aircraft.setCallsign (a : Aircraft) (v : Option String) (now : ℚ) : Aircraft :=
  { a with _callsign := v, _last_update := now }

/-- Setter of the `altitude` property: stores the value (feet, possibly absent)
and stamps `_last_update`. -/
def Aircraft.setAltitude (a : Aircraft) (v : Option ℚ) (now : ℚ) : Aircraft :=
  { a with _altitude := v, _last_update := now }

/-- Setter of the `speed` property: stores the value and stamps `_last_update`. -/
def Aircraft.setSpeed (a : Aircraft) (v : Option ℚ) (now : ℚ) : Aircraft :=
  { a with _speed := v, _last_update := now }

/-- Setter of the `heading` property: stores the value and stamps `_last_update`. -/
def Aircraft.setHeading (a : Aircraft) (v : Option ℚ) (now : ℚ) : Aircraft :=
  { a with _heading := v, _last_update := now }

/-- Setter of the `position` property: stores the value and clears both pending
fragment slots.  Note the Python setter does not touch `_last_update`. -/
def Aircraft.setPosition (a : Aircraft) (v : Option Pos) : Aircraft :=
  { a with _position := v, _position_even := none, _position_odd := none }

/-- Setter of the `position_even` property: stores `(value, time.time())`. -/
def Aircraft.setPositionEven (a : Aircraft) (v : ℕ) (now : ℚ) : Aircraft :=
  { a with _position_even := some (v, now) }

/-- Setter of the `position_odd` property: stores `(value, time.time())`. -/
def Aircraft.setPositionOdd (a : Aircraft) (v : ℕ) (now : ℚ) : Aircraft :=
  { a with _position_odd := some (v, now) }

/-- Derived `age` property: seconds elapsed since `_last_update`. -/
def Aircraft.age (a : Aircraft) (now : ℚ) : ℚ :=
  now - a._last_update

/-- Setter of the `age` property: unconditionally raises
`ValueError("This property cannot be set.")`. -/
def Aircraft.setAge (_a : Aircraft) (_v : ℚ) : Except String Aircraft :=
  .error "This property cannot be set."

/-- Getter of the `altitude` property: computes `self._altitude * 0.3048`
(feet to meters).  When the stored value is `None` the Python multiplication
raises `TypeError`; the getter never yields an absent value. -/
def Aircraft.getAltitude (a : Aircraft) : Except String ℚ :=
  match a._altitude with
  | none => .error "TypeError"
  | some v => .ok (v * (3048 / 10000))

/-- Getter of the `callsign` property: returns the stored value unchanged. -/
def Aircraft.getCallsign (a : Aircraft) : Option String := a._callsign

/-- Getter of the `position` property: returns the stored value unchanged. -/
def Aircraft.getPosition (a : Aircraft) : Option Pos := a._position

/-- Getter of the `speed` property: returns the stored value unchanged. -/
def Aircraft.getSpeed (a : Aircraft) : Option ℚ := a._speed

/-- Getter of the `heading` property: returns the stored value unchanged. -/
def Aircraft.getHeading (a : Aircraft) : Option ℚ := a._heading

/-- Fragment path of `Dump1090.decode` (maho/adsb.py lines 207–218): store the
incoming fragment in the slot selected by the parity flag, then, if both slots
are now populated, assign `position` the result of the external positional
merge `modes.adsb.position(even_msg, odd_msg, even_time, odd_time)` — note the
assignment happens whether or not the merge produced a result, and the
`position` setter clears both slots either way.  The external decoder is a
parameter `merge`. -/
def applyFragment (merge : ℕ → ℕ → ℚ → ℚ → Option Pos)
    (oddFlag : Bool) (msg : ℕ) (now : ℚ) (a : Aircraft) : Aircraft :=
  let a1 := if oddFlag then a.setPositionOdd msg now else a.setPositionEven msg now
  match a1._position_odd, a1._position_even with
  | some o, some e => a1.setPosition (merge e.1 o.1 e.2 o.2)
  | _, _ => a1

/-! ## Tracker: the target-selection loop of `track_closest_aircraft` -/

/-- One eligible input to the tracker: the aircraft's address and the computed
azimuth/altitude/distance, together with the age the tracker observes on the
current target's entity at this step (the `target.age` lookup). -/
structure TrackInput where
  icao : ℕ
  azimuth : ℚ
  altitude : ℚ
  distance : ℚ
  targetAge : ℚ
  deriving Repr, DecidableEq

/-- An emitted aim-point event `(address, azimuth, altitude, distance)`
(the tuple `q.put((target, azimuth, altitude, distance))`). -/
structure AimEvent where
  icao : ℕ
  azimuth : ℚ
  altitude : ℚ
  distance : ℚ
  deriving Repr, DecidableEq

/-- Tracker state: `none` before any target (`target = None`), otherwise the
current target's address paired with `target_distance`.  The two Python
variables are coupled: `target_distance` is assigned whenever `target` is. -/
abbrev TrackState : Type := Option (ℕ × ℚ)

/-- Loop body of `track_closest_aircraft` (maho/cli.py lines 66–79), translated
clause by clause: the big `if` possibly retargets, the `continue` guard skips
non-targets, and the tail refreshes `target`/`target_distance` and emits. -/
def trackStep (s : TrackState) (i : TrackInput) : TrackState × Option AimEvent :=
  match s with
  | none =>
    -- `target is None` fires the if; afterwards target.icao == aircraft.icao.
    (some (i.icao, i.distance), some ⟨i.icao, i.azimuth, i.altitude, i.distance⟩)
  | some (tIcao, tDist) =>
    let newIcao : ℕ :=
      if i.targetAge > 60 ∨ (tIcao ≠ i.icao ∧ i.distance < tDist) then i.icao else tIcao
    if newIcao ≠ i.icao then
      (some (tIcao, tDist), none)
    else
      (some (i.icao, i.distance), some ⟨i.icao, i.azimuth, i.altitude, i.distance⟩)

/-- Fold of `trackStep` over an ordered input sequence, collecting the emitted
aim-point events in order. -/
def trackProcess : List TrackInput → TrackState → TrackState × List AimEvent
  | [], s => (s, [])
  | i :: l, s =>
    let p := trackStep s i
    let r := trackProcess l p.1
    (r.1, p.2.toList ++ r.2)

/-- Five-rule reference transition of the specification (§4.3): rule 1 from
`NoTarget`; rule 2 staleness takeover; rule 3 closer displaces; rule 4 same
target refreshes; rule 5 ignore.  An event is emitted exactly when, after the
step, the current target's address equals the input's address. -/
def refStep (s : TrackState) (i : TrackInput) : TrackState × Option AimEvent :=
  let s' : TrackState :=
    match s with
    | none => some (i.icao, i.distance)
    | some (t, d) =>
      if i.targetAge > 60 then some (i.icao, i.distance)
      else if i.icao ≠ t ∧ i.distance < d then some (i.icao, i.distance)
      else if i.icao = t then some (i.icao, i.distance)
      else some (t, d)
  let ev : Option AimEvent :=
    match s' with
    | some (t, _) =>
      if t = i.icao then some ⟨i.icao, i.azimuth, i.altitude, i.distance⟩ else none
    | none => none
  (s', ev)

/-- Fold of the reference transition over an input sequence. -/
def refProcess : List TrackInput → TrackState → TrackState × List AimEvent
  | [], s => (s, [])
  | i :: l, s =>
    let p := refStep s i
    let r := refProcess l p.1
    (r.1, p.2.toList ++ r.2)

/-! ## Camera: the orientation arithmetic of `IPCamera.move_to` -/

/-- Orientation arithmetic of `IPCamera.move_to` (maho/camera.py lines
135–146): add the configured offsets, then adjust the azimuth by a single
conditional ±360 step (`if azimuth > 360 … elif azimuth < 0 …`) and clamp the
altitude into `[0, 90]`.  `move_to` returns exactly this pair on success. -/
def moveToResult (azimuthOffset altitudeOffset azimuth altitude : ℚ) : ℚ × ℚ :=
  let azimuth := azimuth + azimuthOffset
  let altitude := altitude + altitudeOffset
  let azimuth :=
    if azimuth > 360 then azimuth - 360
    else if azimuth < 0 then 360 + azimuth
    else azimuth
  let altitude :=
    if altitude > 90 then 90
    else if altitude < 0 then 0
    else altitude
  (azimuth, altitude)

/-! ## Store: capacity-bounded aging cache

The cache that backs `Dump1090` is the third-party `ExpiringDict`
(`ExpiringDict(max_len=max_aircraft, max_age_seconds=max_aircraft_age)`,
maho/adsb.py line 157); its implementation is not part of this repository,
so the eviction behaviour is modelled from the specification. -/

/-- Modelled from the spec: the capacity-`N` eviction policy of the store
(the `ExpiringDict` behind `Dump1090._cache` is external code).  The store's
keys are listed least-recently-touched first.  Inserting an address already
present is a touch (moves it to the most-recent end); inserting a fresh
address at capacity evicts the least-recently-touched key. -/
def storeInsert (N : ℕ) (keys : List ℕ) (a : ℕ) : List ℕ :=
  if a ∈ keys then keys.erase a ++ [a]
  else if N ≤ keys.length then keys.drop 1 ++ [a]
  else keys ++ [a]

/-- Modelled from the spec: inserting a sequence of addresses in order. -/
def storeInsertAll (N : ℕ) (keys : List ℕ) : List ℕ → List ℕ
  | [] => keys
  | a :: l => storeInsertAll N (storeInsert N keys a) l

/-! ## Geodesy: `Location` and `AzimuthAltitudeDistance` from `maho/util.py` -/

/-- Method `Location._geocentric_latitude`:
`atan((1.0 - 0.00669437999014) * tan(lat))` (radians in, radians out). -/
noncomputable def geocentric_latitude (lat : ℝ) : ℝ :=
  Real.arctan ((1 - 0.00669437999014) * Real.tan lat)

/-- Method `Location._earth_radius_in_meters` (radians in, meters out). -/
noncomputable def earth_radius_in_meters (lat : ℝ) : ℝ :=
  let a : ℝ := 6378137.0
  let b : ℝ := 6356752.3
  let c := Real.cos lat
  let s := Real.sin lat
  let t1 := a * a * c
  let t2 := b * b * s
  let t3 := a * c
  let t4 := b * s
  Real.sqrt ((t1 * t1 + t2 * t2) / (t3 * t3 + t4 * t4))

/-- The fields computed by `Location.__init__`: the geodetic inputs, the
ellipsoid radius, the Earth-centered Cartesian position `(x, y, z)` and the
surface-normal vector `(nx, ny, nz)`. -/
structure Location where
  lat : ℝ
  lng : ℝ
  ele : ℝ
  radius : ℝ
  x : ℝ
  y : ℝ
  z : ℝ
  nx : ℝ
  ny : ℝ
  nz : ℝ

/-- Constructor `Location.__init__(lat, lng, ele)`, line by line: degree→radian
conversion, geocentric latitude, radius, base Cartesian point, normal, and the
elevation offset along the normal. -/
noncomputable def Location.ofGeodetic (lat lng ele : ℝ) : Location :=
  let latR := lat * Real.pi / 180.0
  let lngR := lng * Real.pi / 180.0
  let clat := geocentric_latitude latR
  let lng_cos := Real.cos lngR
  let lng_sin := Real.sin lngR
  let lat_cos := Real.cos latR
  let lat_sin := Real.sin latR
  let clat_cos := Real.cos clat
  let clat_sin := Real.sin clat
  let radius := earth_radius_in_meters latR
  let x := radius * lng_cos * clat_cos
  let y := radius * lng_sin * clat_cos
  let z := radius * clat_sin
  let nx := lat_cos * lng_cos
  let ny := lat_cos * lng_sin
  let nz := lat_sin
  { lat := lat, lng := lng, ele := ele, radius := radius
    x := x + ele * nx, y := y + ele * ny, z := z + ele * nz
    nx := nx, ny := ny, nz := nz }

/-- Python `math.atan2(y, x)`, modelled as the argument of the complex number
`x + y·i`, valued in `(-π, π]`. -/
noncomputable def atan2 (y x : ℝ) : ℝ :=
  Complex.arg ⟨x, y⟩

/-- The `by` component of the rotated destination in
`AzimuthAltitudeDistance._azimuth`: the destination is rebuilt with its
longitude shifted by the origin's longitude, and `by` is its `y`. -/
noncomputable def rotatedBy (origin destination : Location) : ℝ :=
  (Location.ofGeodetic destination.lat (destination.lng - origin.lng) destination.ele).y

/-- The `bz` component of the rotated destination in
`AzimuthAltitudeDistance._azimuth`: the rotated point tilted by the
geocentric latitude of the negated origin latitude. -/
noncomputable def rotatedBz (origin destination : Location) : ℝ :=
  let rotated :=
    Location.ofGeodetic destination.lat (destination.lng - origin.lng) destination.ele
  let olat := geocentric_latitude (-origin.lat * Real.pi / 180.0)
  rotated.x * Real.sin olat + rotated.z * Real.cos olat

/-- Azimuth computation of `AzimuthAltitudeDistance._azimuth`
(maho/util.py lines 95–122): `None` unless `bz·bz + by·by > 1.0e-6`, otherwise
`90 − atan2(bz, by)·180/π` adjusted by the two sequential conditional
±360 steps of the source. -/
noncomputable def azimuthOf (origin destination : Location) : Option ℝ :=
  let b_y := rotatedBy origin destination
  let b_z := rotatedBz origin destination
  if b_z * b_z + b_y * b_y > 1e-6 then
    let theta := atan2 b_z b_y * 180.0 / Real.pi
    let azimuth := 90.0 - theta
    let azimuth := if azimuth < 0 then azimuth + 360 else azimuth
    let azimuth := if azimuth > 360 then azimuth - 360 else azimuth
    some azimuth
  else
    none

/-- Altitude (elevation-angle) computation of `AzimuthAltitudeDistance._azimuth`
(maho/util.py lines 124–143): `None` when the squared Cartesian distance is
zero (Python truthiness of `dist`), otherwise `90 − (180/π)·acos(û · n̂)` for
the normalized line-of-sight vector `û` and the origin's normal. -/
noncomputable def altitudeOf (origin destination : Location) : Option ℝ :=
  let dx := destination.x - origin.x
  let dy := destination.y - origin.y
  let dz := destination.z - origin.z
  let dist2 := dx * dx + dy * dy + dz * dz
  if dist2 = 0 then none
  else
    let dist := Real.sqrt dist2
    some (90.0 - 180.0 / Real.pi * Real.arccos
      (dx / dist * origin.nx + dy / dist * origin.ny + dz / dist * origin.nz))

/-- Method `AzimuthAltitudeDistance._distance`: Euclidean norm of the
Cartesian difference. -/
noncomputable def distanceOf (origin destination : Location) : ℝ :=
  let dx := origin.x - destination.x
  let dy := origin.y - destination.y
  let dz := origin.z - destination.z
  Real.sqrt (dx * dx + dy * dy + dz * dz)

/-- Spec-side altitude definition, written from the specification's words:
`90° − arccos(û · n̂)` (in degrees) for `û` the unit line-of-sight vector from
observer to target and `n̂` the observer's surface normal, absent exactly when
the distance between the two points is 0.  Used to state the refinement of the
source's altitude computation. -/
noncomputable def specAltitude (origin destination : Location) : Option ℝ :=
  let d := Real.sqrt ((destination.x - origin.x) ^ 2 + (destination.y - origin.y) ^ 2 +
    (destination.z - origin.z) ^ 2)
  if d = 0 then none
  else
    some (90 - Real.arccos ((destination.x - origin.x) / d * origin.nx +
      (destination.y - origin.y) / d * origin.ny +
      (destination.z - origin.z) / d * origin.nz) * 180 / Real.pi)

/-- Method `AzimuthAltitudeDistance.calculate`: build the destination location
and return the azimuth/altitude/distance triple. -/
noncomputable def calculate (origin : Location) (lat lng ele : ℝ) :
    Option ℝ × Option ℝ × ℝ :=
  let destination := Location.ofGeodetic lat lng ele
  (azimuthOf origin destination, altitudeOf origin destination,
    distanceOf origin destination)

/-! ## Theorems -/

/-- One step of the translated loop body agrees with one step of the five-rule
reference transition. -/
lemma trackStep_eq_refStep (s : TrackState) (i : TrackInput) :
    trackStep s i = refStep s i := by
  rcases s with _ | ⟨t, d⟩
  · simp [trackStep, refStep]
  · by_cases hage : i.targetAge > 60
    · simp [trackStep, refStep, hage]
    · by_cases heq : i.icao = t
      · simp [trackStep, refStep, hage, heq]
      · by_cases hlt : i.distance < d
        · simp [trackStep, refStep, hage, heq, hlt, Ne.symm heq]
        · simp [trackStep, refStep, hage, heq, hlt, Ne.symm heq]

/-- The fold of the translated loop agrees with the fold of the reference
transition from any starting state. -/
lemma trackProcess_eq_refProcess (l : List TrackInput) :
    ∀ s, trackProcess l s = refProcess l s := by
  induction l with
  | nil => intro s; rfl
  | cons i l ih =>
    intro s
    simp only [trackProcess, refProcess, trackStep_eq_refStep, ih]

/-- C1: for every ordered sequence of eligible inputs, the tracker state
evolves exactly by the five-rule reference definition, and an aim-point event
is emitted exactly when, after the step, the current target's address equals
the input's address. -/
theorem tracker_matches_five_rule_reference :
    ∀ (l : List TrackInput), trackProcess l none = refProcess l none :=
  fun l => trackProcess_eq_refProcess l none

/-- C6: assigning the position field clears both pending fragment slots and
stores the assigned value, for every entity state and every value. -/
theorem position_assign_clears_fragments :
    ∀ (a : Aircraft) (v : Option Pos),
      (a.setPosition v)._position_even = none ∧
      (a.setPosition v)._position_odd = none ∧
      (a.setPosition v)._position = v :=
  fun _ _ => ⟨rfl, rfl, rfl⟩

/-- C9: directly assigning the derived age property always fails with
`ValueError("This property cannot be set.")`, for every entity and value;
no updated entity is ever produced. -/
theorem age_assignment_always_fails :
    ∀ (a : Aircraft) (v : ℚ),
      a.setAge v = Except.error "This property cannot be set." :=
  fun _ _ => rfl

/-- C10: reading the altitude of an Aircraft whose stored altitude is `None`
(every freshly created entity included) raises `TypeError`, because the getter
unconditionally multiplies by 0.3048; callsign, position, speed and heading
read back as absent instead. -/
theorem unset_altitude_read_raises :
    ∀ (i : ℕ) (now : ℚ),
      (Aircraft.create i now).getAltitude = Except.error "TypeError" ∧
      (Aircraft.create i now).getCallsign = none ∧
      (Aircraft.create i now).getPosition = none ∧
      (Aircraft.create i now).getSpeed = none ∧
      (Aircraft.create i now).getHeading = none ∧
      (∀ (a : Aircraft), a._altitude = none →
        a.getAltitude = Except.error "TypeError") := by
  intro i now
  refine ⟨rfl, rfl, rfl, rfl, rfl, ?_⟩
  intro a h
  simp [Aircraft.getAltitude, h]

/-- Witness for C10 at a concrete fresh entity. -/
theorem unset_altitude_read_raises_witness :
    (Aircraft.create 1 5).getAltitude = Except.error "TypeError" :=
  (unset_altitude_read_raises 0 0).2.2.2.2.2 (Aircraft.create 1 5) rfl

/-- Counterexample to C3 as stated: assigning `position` does not stamp
`last_update`, so an entity created at time 0 whose position is assigned at
time 100 still has age 100, not approximately 0. -/
theorem position_setter_skips_timestamp_cx :
    ((Aircraft.create 1 0).setPosition (some (2, 3)))._last_update = 0 ∧
    Aircraft.age ((Aircraft.create 1 0).setPosition (some (2, 3))) 100 = 100 ∧
    (100 : ℚ) ≠ 0 := by
  refine ⟨rfl, by simp [Aircraft.age, Aircraft.setPosition, Aircraft.create], by norm_num⟩

/-- C3 (amended): assigning icao, callsign, altitude, speed or heading stamps
`last_update = now` (so the derived age is exactly 0 immediately after and
strictly increases with the clock thereafter); assigning position leaves
`last_update` unchanged. -/
theorem setter_timestamp_behavior :
    ∀ (a : Aircraft) (i : ℕ) (s : Option String) (v : Option ℚ) (p : Option Pos)
      (now t1 t2 : ℚ),
      (a.setIcao i now)._last_update = now ∧
      (a.setCallsign s now)._last_update = now ∧
      (a.setAltitude v now)._last_update = now ∧
      (a.setSpeed v now)._last_update = now ∧
      (a.setHeading v now)._last_update = now ∧
      (a.setPosition p)._last_update = a._last_update ∧
      (a.setCallsign s now).age now = 0 ∧
      (t1 < t2 → a.age t1 < a.age t2) := by
  intro a i s v p now t1 t2
  refine ⟨rfl, rfl, rfl, rfl, rfl, rfl, ?_, ?_⟩
  · simp [Aircraft.age, Aircraft.setCallsign]
  · intro h
    simp only [Aircraft.age]
    linarith

/-- Witness for C3's amended theorem: age strictly increases with the clock. -/
theorem setter_timestamp_behavior_witness :
    Aircraft.age (Aircraft.create 7 0) 1 < Aircraft.age (Aircraft.create 7 0) 2 :=
  (setter_timestamp_behavior (Aircraft.create 7 0) 0 none none none 0 1 2).2.2.2.2.2.2.2
    (by norm_num)

/-- Counterexample to C2 as stated: with an even fragment already stored, an
arriving odd fragment whose merge fails leaves both slots cleared (the failed
merge result `None` is assigned to `position`, whose setter clears the slots),
not retained. -/
theorem failed_merge_clears_slots_cx :
    (applyFragment (fun _ _ _ _ => none) true 11 2
        ((Aircraft.create 1 0).setPositionEven 10 1))._position_even = none ∧
    (applyFragment (fun _ _ _ _ => none) true 11 2
        ((Aircraft.create 1 0).setPositionEven 10 1))._position_odd = none ∧
    ((none : Option (ℕ × ℚ)) ≠ some (10, 1)) := by
  exact ⟨rfl, rfl, by decide⟩

/-- C2 (amended): when both parity slots are populated after storing the
incoming fragment and the positional merge yields no result, the entity ends
with `position = None` and both fragment slots cleared — the fragments are not
retained. -/
theorem failed_merge_clears_slots :
    ∀ (merge : ℕ → ℕ → ℚ → ℚ → Option Pos) (oddFlag : Bool) (msg : ℕ) (now : ℚ)
      (a : Aircraft) (e o : ℕ × ℚ),
      (if oddFlag then a.setPositionOdd msg now
        else a.setPositionEven msg now)._position_even = some e →
      (if oddFlag then a.setPositionOdd msg now
        else a.setPositionEven msg now)._position_odd = some o →
      merge e.1 o.1 e.2 o.2 = none →
      (applyFragment merge oddFlag msg now a)._position_even = none ∧
      (applyFragment merge oddFlag msg now a)._position_odd = none ∧
      (applyFragment merge oddFlag msg now a)._position = none := by
  intro merge oddFlag msg now a e o he ho hm
  have hstep : applyFragment merge oddFlag msg now a =
      (if oddFlag then a.setPositionOdd msg now
        else a.setPositionEven msg now).setPosition (merge e.1 o.1 e.2 o.2) := by
    simp only [applyFragment]
    rw [ho, he]
  rw [hstep, hm]
  exact ⟨rfl, rfl, rfl⟩

/-- Witness for C2's amended theorem at a concrete failing merge. -/
theorem failed_merge_clears_slots_witness :
    (applyFragment (fun _ _ _ _ => none) true 11 2
        ((Aircraft.create 1 0).setPositionEven 10 1))._position = none :=
  (failed_merge_clears_slots (fun _ _ _ _ => none) true 11 2
      ((Aircraft.create 1 0).setPositionEven 10 1) (10, 1) (11, 2) rfl rfl rfl).2.2

/-- Counterexample to C8 as stated: with azimuth offset 180, a requested
azimuth of 180 sums to exactly 360, which the single conditional wrap leaves
untouched, so the returned azimuth is 360 — not in `[0, 360)`. -/
theorem moveTo_returns_360_cx :
    (moveToResult 180 0 180 50).1 = 360 ∧ ¬ (moveToResult 180 0 180 50).1 < 360 := by
  refine ⟨by norm_num [moveToResult], by norm_num [moveToResult]⟩

/-- C8 (amended): `move_to` applies the offsets, clamps the altitude into
`[0, 90]` and adjusts the azimuth by a single conditional ±360 step, so the
returned azimuth lies in `[0, 360]` (boundary 360 included) whenever the
offset sum lies in `[-360, 360]`; the pair returned is exactly this adjusted
orientation. -/
theorem moveTo_offset_clamp_wrap :
    ∀ (azo alto az alt : ℚ),
      (moveToResult azo alto az alt).2 = max 0 (min 90 (alt + alto)) ∧
      (-360 ≤ az + azo → az + azo ≤ 360 →
        0 ≤ (moveToResult azo alto az alt).1 ∧
          (moveToResult azo alto az alt).1 ≤ 360) := by
  intro azo alto az alt
  unfold moveToResult
  constructor
  · simp only
    split_ifs with h1 h2 <;> simp [max_def, min_def] <;> split_ifs <;> linarith
  · intro hlo hhi
    simp only
    split_ifs with h1 h2 <;> constructor <;> linarith

/-- Witness for C8's amended theorem at a concrete in-range offset sum. -/
theorem moveTo_offset_clamp_wrap_witness :
    (moveToResult (-30) 5 10 100).2 = max 0 (min 90 ((100 : ℚ) + 5)) ∧
    (0 ≤ (moveToResult (-30) 5 10 100).1 ∧ (moveToResult (-30) 5 10 100).1 ≤ 360) :=
  ⟨(moveTo_offset_clamp_wrap (-30) 5 10 100).1,
   (moveTo_offset_clamp_wrap (-30) 5 10 100).2 (by norm_num) (by norm_num)⟩

/-- Sliding-window shape of the store under all-fresh insertions: with
capacity at least 1, a store within capacity, and no duplicates anywhere,
inserting a list of addresses keeps exactly the most recent `N` keys. -/
lemma storeInsertAll_fresh (l : List ℕ) :
    ∀ (N : ℕ) (keys : List ℕ), 1 ≤ N → keys.length ≤ N → (keys ++ l).Nodup →
      storeInsertAll N keys l = (keys ++ l).drop ((keys ++ l).length - N) := by
  induction l with
  | nil =>
    intro N keys _ hlen _
    simp [storeInsertAll, Nat.sub_eq_zero_of_le hlen]
  | cons a l ih =>
    intro N keys hN hlen hnd
    have ha : a ∉ keys := fun hmem =>
      (List.nodup_append.mp hnd).2.2 hmem (List.mem_cons_self a l)
    by_cases hfull : N ≤ keys.length
    · have hkeyslen : keys.length = N := le_antisymm hlen hfull
      obtain ⟨k0, krest, rfl⟩ : ∃ k0 krest, keys = k0 :: krest := by
        cases keys with
        | nil => simp at hkeyslen; omega
        | cons k0 krest => exact ⟨k0, krest, rfl⟩
      have hfull' : N ≤ krest.length + 1 := by simpa using hfull
      have hstep : storeInsertAll N (k0 :: krest) (a :: l) =
          storeInsertAll N (krest ++ [a]) l := by
        simp [storeInsertAll, storeInsert, ha, hfull']
      have hnd' : ((krest ++ [a]) ++ l).Nodup := by
        have := (List.cons_append k0 krest (a :: l) ▸ hnd).of_cons
        simpa [List.append_assoc] using this
      have hlen' : (krest ++ [a]).length ≤ N := by
        simp at hkeyslen ⊢
        omega
      rw [hstep, ih N (krest ++ [a]) hN hlen' hnd']
      have hL : ((krest ++ [a]) ++ l).length - N = l.length + 1 - 1 := by
        simp at hkeyslen ⊢
        omega
      have hR : ((k0 :: krest) ++ a :: l).length - N = l.length + 1 := by
        simp at hkeyslen ⊢
        omega
      rw [hL, hR]
      simp [List.append_assoc, List.drop_succ_cons]
    · have hstep : storeInsertAll N keys (a :: l) =
          storeInsertAll N (keys ++ [a]) l := by
        simp [storeInsertAll, storeInsert, ha, hfull]
      have hnd' : ((keys ++ [a]) ++ l).Nodup := by
        simpa [List.append_assoc] using hnd
      have hlen' : (keys ++ [a]).length ≤ N := by
        simp
        omega
      rw [hstep, ih N (keys ++ [a]) hN hlen' hnd']
      simp [List.append_assoc]

/-- C7: a store of capacity `N`, after inserting `N+1` distinct addresses in
order, holds exactly `N` entries, namely all but the first (least recently
touched) inserted address. -/
theorem store_capacity_eviction :
    ∀ (N : ℕ) (addrs : List ℕ), 1 ≤ N → addrs.Nodup → addrs.length = N + 1 →
      storeInsertAll N [] addrs = addrs.drop 1 ∧
      (storeInsertAll N [] addrs).length = N := by
  intro N addrs hN hnd hlen
  have h := storeInsertAll_fresh addrs N [] hN (by simp) (by simpa using hnd)
  simp only [List.nil_append] at h
  have hdrop : addrs.length - N = 1 := by omega
  rw [hdrop] at h
  refine ⟨h, ?_⟩
  rw [h, List.length_drop]
  omega

/-- Witness for C7 at capacity 2 with three distinct addresses. -/
theorem store_capacity_eviction_witness :
    storeInsertAll 2 [] [5, 6, 7] = [5, 6, 7].drop 1 ∧
    (storeInsertAll 2 [] [5, 6, 7]).length = 2 :=
  store_capacity_eviction 2 [5, 6, 7] (by decide) (by decide) (by decide)

/-- The modelled atan2 is strictly greater than −π. -/
lemma neg_pi_lt_atan2 (y x : ℝ) : -Real.pi < atan2 y x :=
  Complex.neg_pi_lt_arg _

/-- The modelled atan2 is at most π. -/
lemma atan2_le_pi (y x : ℝ) : atan2 y x ≤ Real.pi :=
  Complex.arg_le_pi _

/-- C5: the azimuth is absent exactly when the squared horizontal magnitude
`bz² + by²` of the rotated target vector does not exceed the 1.0e-6 threshold,
and any present azimuth lies in `[0, 360)`. -/
theorem azimuth_absence_and_range :
    ∀ (origin destination : Location),
      (azimuthOf origin destination = none ↔
        rotatedBz origin destination * rotatedBz origin destination +
          rotatedBy origin destination * rotatedBy origin destination ≤ 1e-6) ∧
      0 ≤ (azimuthOf origin destination).getD 0 ∧
      (azimuthOf origin destination).getD 0 < 360 := by
  intro origin destination
  have hπ := Real.pi_pos
  have h1 := neg_pi_lt_atan2 (rotatedBz origin destination) (rotatedBy origin destination)
  have h2 := atan2_le_pi (rotatedBz origin destination) (rotatedBy origin destination)
  have hθlo : -180 <
      atan2 (rotatedBz origin destination) (rotatedBy origin destination) * 180.0 /
        Real.pi := by
    rw [lt_div_iff₀ hπ]
    nlinarith
  have hθhi :
      atan2 (rotatedBz origin destination) (rotatedBy origin destination) * 180.0 /
        Real.pi ≤ 180 := by
    rw [div_le_iff₀ hπ]
    nlinarith
  by_cases h : rotatedBz origin destination * rotatedBz origin destination +
      rotatedBy origin destination * rotatedBy origin destination > 1e-6
  · have hazi : azimuthOf origin destination =
        some (let θ :=
            atan2 (rotatedBz origin destination) (rotatedBy origin destination) * 180.0 /
              Real.pi
          let azimuth := 90.0 - θ
          let azimuth := if azimuth < 0 then azimuth + 360 else azimuth
          if azimuth > 360 then azimuth - 360 else azimuth) := by
      simp only [azimuthOf]
      rw [if_pos h]
    rw [hazi]
    refine ⟨iff_of_false (by simp) (not_le.mpr h), ?_, ?_⟩ <;>
      · simp only [Option.getD_some]
        split_ifs <;> linarith
  · have hazi : azimuthOf origin destination = none := by
      simp only [azimuthOf]
      rw [if_neg h]
    rw [hazi]
    refine ⟨iff_of_true rfl (not_lt.mp h), by simp, by simp⟩

/-- C4 (amended): the altitude equals the spec's `90° − arccos(û · n̂)` (in
degrees) and is absent exactly when the Cartesian distance between the two
points is 0; whenever defined it lies in `[-90°, 90°]` — targets below the
observer's horizon give negative values, so the range `0–90°` of the original
claim does not hold. -/
theorem altitude_formula_absence_and_range :
    ∀ (origin destination : Location),
      altitudeOf origin destination = specAltitude origin destination ∧
      (altitudeOf origin destination = none ↔ distanceOf origin destination = 0) ∧
      -90 ≤ (altitudeOf origin destination).getD 0 ∧
      (altitudeOf origin destination).getD 0 ≤ 90 := by
  rintro ⟨olat, olng, oele, orad, ox, oy, oz, onx, ony, onz⟩
    ⟨dlat, dlng, dele, drad, tx, ty, tz, tnx, tny, tnz⟩
  have hπ := Real.pi_pos
  simp only [altitudeOf, specAltitude, distanceOf]
  have hS0 : 0 ≤ (tx - ox) * (tx - ox) + (ty - oy) * (ty - oy) +
      (tz - oz) * (tz - oz) := by
    have h1 := mul_self_nonneg (tx - ox)
    have h2 := mul_self_nonneg (ty - oy)
    have h3 := mul_self_nonneg (tz - oz)
    linarith
  have hsq : (tx - ox) ^ 2 + (ty - oy) ^ 2 + (tz - oz) ^ 2 =
      (tx - ox) * (tx - ox) + (ty - oy) * (ty - oy) + (tz - oz) * (tz - oz) := by
    ring
  have hdist : (ox - tx) * (ox - tx) + (oy - ty) * (oy - ty) + (oz - tz) * (oz - tz) =
      (tx - ox) * (tx - ox) + (ty - oy) * (ty - oy) + (tz - oz) * (tz - oz) := by
    ring
  rw [hsq, hdist]
  by_cases hz : (tx - ox) * (tx - ox) + (ty - oy) * (ty - oy) +
      (tz - oz) * (tz - oz) = 0
  · rw [if_pos hz, if_pos ((Real.sqrt_eq_zero hS0).mpr hz)]
    exact ⟨rfl, iff_of_true rfl ((Real.sqrt_eq_zero hS0).mpr hz), by simp, by simp⟩
  · have hsne : Real.sqrt ((tx - ox) * (tx - ox) + (ty - oy) * (ty - oy) +
        (tz - oz) * (tz - oz)) ≠ 0 :=
      fun hc => hz ((Real.sqrt_eq_zero hS0).mp hc)
    rw [if_neg hz, if_neg hsne]
    have hc1 := Real.arccos_nonneg
      ((tx - ox) / Real.sqrt ((tx - ox) * (tx - ox) + (ty - oy) * (ty - oy) +
          (tz - oz) * (tz - oz)) * onx +
        (ty - oy) / Real.sqrt ((tx - ox) * (tx - ox) + (ty - oy) * (ty - oy) +
          (tz - oz) * (tz - oz)) * ony +
        (tz - oz) / Real.sqrt ((tx - ox) * (tx - ox) + (ty - oy) * (ty - oy) +
          (tz - oz) * (tz - oz)) * onz)
    have hc2 := Real.arccos_le_pi
      ((tx - ox) / Real.sqrt ((tx - ox) * (tx - ox) + (ty - oy) * (ty - oy) +
          (tz - oz) * (tz - oz)) * onx +
        (ty - oy) / Real.sqrt ((tx - ox) * (tx - ox) + (ty - oy) * (ty - oy) +
          (tz - oz) * (tz - oz)) * ony +
        (tz - oz) / Real.sqrt ((tx - ox) * (tx - ox) + (ty - oy) * (ty - oy) +
          (tz - oz) * (tz - oz)) * onz)
    have hkey : 180.0 / Real.pi * Real.arccos
        ((tx - ox) / Real.sqrt ((tx - ox) * (tx - ox) + (ty - oy) * (ty - oy) +
            (tz - oz) * (tz - oz)) * onx +
          (ty - oy) / Real.sqrt ((tx - ox) * (tx - ox) + (ty - oy) * (ty - oy) +
            (tz - oz) * (tz - oz)) * ony +
          (tz - oz) / Real.sqrt ((tx - ox) * (tx - ox) + (ty - oy) * (ty - oy) +
            (tz - oz) * (tz - oz)) * onz) ≤ 180 := by
      rw [div_mul_eq_mul_div, div_le_iff₀ hπ]
      nlinarith
    have hkey2 : 0 ≤ 180.0 / Real.pi * Real.arccos
        ((tx - ox) / Real.sqrt ((tx - ox) * (tx - ox) + (ty - oy) * (ty - oy) +
            (tz - oz) * (tz - oz)) * onx +
          (ty - oy) / Real.sqrt ((tx - ox) * (tx - ox) + (ty - oy) * (ty - oy) +
            (tz - oz) * (tz - oz)) * ony +
          (tz - oz) / Real.sqrt ((tx - ox) * (tx - ox) + (ty - oy) * (ty - oy) +
            (tz - oz) * (tz - oz)) * onz) := by
      have : (0 : ℝ) < 180.0 / Real.pi := by positivity
      nlinarith
    refine ⟨?_, iff_of_false (by simp) hsne, ?_, ?_⟩
    · congr 1
      ring
    · simp only [Option.getD_some]
      linarith
    · simp only [Option.getD_some]
      linarith

/-- The geocentric latitude of 0 is 0. -/
lemma geocentric_latitude_zero : geocentric_latitude 0 = 0 := by
  simp [geocentric_latitude, Real.tan_zero, Real.arctan_zero]

/-- The ellipsoid radius at latitude 0 is the semi-major axis. -/
lemma earth_radius_zero : earth_radius_in_meters 0 = 6378137 := by
  have h : earth_radius_in_meters 0 = Real.sqrt ((6378137 : ℝ) ^ 2) := by
    simp only [earth_radius_in_meters, Real.cos_zero, Real.sin_zero]
    congr 1
    norm_num
  rw [h, Real.sqrt_sq (by norm_num)]

/-- The location of geodetic (0, 0, 0): on the equator at the prime meridian. -/
lemma ofGeodetic_equator_prime :
    Location.ofGeodetic 0 0 0 =
      ⟨0, 0, 0, 6378137, 6378137, 0, 0, 1, 0, 0⟩ := by
  simp only [Location.ofGeodetic]
  norm_num [geocentric_latitude_zero, earth_radius_zero]

/-- The location of geodetic (0, 180, 0): the antipode on the equator. -/
lemma ofGeodetic_equator_antipode :
    Location.ofGeodetic 0 180 0 =
      ⟨0, 180, 0, 6378137, -6378137, 0, 0, -1, 0, 0⟩ := by
  simp only [Location.ofGeodetic]
  have h180 : (180 : ℝ) * Real.pi / 180.0 = Real.pi := by
    norm_num
  rw [h180]
  norm_num [geocentric_latitude_zero, earth_radius_zero, Real.cos_pi, Real.sin_pi]

/-- Counterexample to C4 as stated: for an observer at geodetic (0, 0, 0) and
the antipodal target at geodetic (0, 180, 0) the computed elevation angle is
defined and equals −90°, outside the claimed range 0–90°. -/
theorem altitude_below_horizon_cx :
    altitudeOf (Location.ofGeodetic 0 0 0) (Location.ofGeodetic 0 180 0) =
      some (-90) ∧ ¬ (0 : ℝ) ≤ -90 := by
  refine ⟨?_, by norm_num⟩
  rw [ofGeodetic_equator_prime, ofGeodetic_equator_antipode]
  simp only [altitudeOf]
  have hS : ((-6378137 : ℝ) - 6378137) * ((-6378137 : ℝ) - 6378137) +
      ((0 : ℝ) - 0) * ((0 : ℝ) - 0) + ((0 : ℝ) - 0) * ((0 : ℝ) - 0) =
      (12756274 : ℝ) ^ 2 := by norm_num
  rw [hS]
  rw [if_neg (by positivity : ¬ ((12756274 : ℝ) ^ 2) = 0)]
  rw [Real.sqrt_sq (by norm_num : (0 : ℝ) ≤ 12756274)]
  have harg : ((-6378137 : ℝ) - 6378137) / 12756274 * 1 +
      ((0 : ℝ) - 0) / 12756274 * 0 + ((0 : ℝ) - 0) / 12756274 * 0 = -1 := by
    norm_num
  rw [harg, Real.arccos_neg_one]
  have : (90.0 : ℝ) - 180.0 / Real.pi * Real.pi = -90 := by
    field_simp
    ring
  rw [this]

end Maho
